import Mathlib

/-!
Verification of the record reconciliation and differencing engine of
src/diferencia_mpio_2024_2025.py: XML record extraction, completeness
classifiers, the snapshot differ with its suppression rules, the
cross-reference set algebra and the municipality grouping.

Python values flowing through the differ are always one of: None, a string,
or a dict produced by parsear_elemento. They are embedded as the type Val
below. Python exceptions (AttributeError on None.text, TypeError on
iterating None, etc.) are embedded with Except Unit.
-/

namespace DifMpio

mutual
/-- An XML element as exposed by Python's xml.etree.ElementTree:
a tag name, the text content (Python None embedded as `none`) and the
children in document order. The children are their own inductive so that
every recursion over the tree is structural (and reduces definitionally). -/
inductive Elem where
  | mk : (tag : String) → (text : Option String) → (children : ElemList) → Elem

/-- A sequence of sibling XML elements in document order. -/
inductive ElemList where
  | nil : ElemList
  | cons : Elem → ElemList → ElemList
end

def Elem.tag : Elem → String
  | .mk t _ _ => t

def Elem.text : Elem → Option String
  | .mk _ tx _ => tx

def Elem.children : Elem → ElemList
  | .mk _ _ ch => ch

/-- Build the children sequence from an ordinary list (used to write down
concrete trees). -/
def ElemList.ofList : List Elem → ElemList
  | [] => .nil
  | e :: es => .cons e (ElemList.ofList es)

/-- A value stored in the nested dictionaries built by `parsear_elemento`:
either a scalar (the element's text, possibly Python None) or a nested
mapping (a Python dict, kept as an association list in insertion order). -/
inductive Val where
  | scalar : Option String → Val
  | nested : List (String × Val) → Val
deriving Repr

mutual
/-- Python equality between two extracted values. None == None, strings by
content, a scalar never equals a dict. Note: Python compares dicts without
regard to insertion order; extracted mappings list keys in first-occurrence
document order, which is fixed by the XML schema, so ordered comparison of
entry lists coincides with Python's comparison on this program's data. -/
def Val.beq : Val → Val → Bool
  | .scalar a, .scalar b => a == b
  | .nested xs, .nested ys => Val.beqList xs ys
  | .scalar _, .nested _ => false
  | .nested _, .scalar _ => false

def Val.beqList : List (String × Val) → List (String × Val) → Bool
  | [], [] => true
  | (k, v) :: xs, (l, w) :: ys => k == l && Val.beq v w && Val.beqList xs ys
  | [], _ :: _ => false
  | _ :: _, [] => false
end

instance : BEq Val := ⟨Val.beq⟩

mutual
theorem Val.beq_refl : (v : Val) → Val.beq v v = true
  | .scalar a => by simp [Val.beq]
  | .nested xs => by simp [Val.beq]; exact Val.beqList_refl xs

theorem Val.beqList_refl : (xs : List (String × Val)) → Val.beqList xs xs = true
  | [] => rfl
  | (k, v) :: xs => by
      simp [Val.beqList]
      exact ⟨Val.beq_refl v, Val.beqList_refl xs⟩
end

/-- Python dict assignment `d[k] = v`: if the key already exists its value is
overwritten in place (the key keeps its position), otherwise the new pair is
appended at the end. -/
def dictInsert (m : List (String × α)) (k : String) (v : α) : List (String × α) :=
  if m.any (fun p => p.1 == k) then
    m.map (fun p => if p.1 == k then (k, v) else p)
  else m ++ [(k, v)]

/-- Python `d.get(k)` / `d[k]`: the value stored under `k`, if any. -/
def lookupD (m : List (String × α)) (k : String) : Option α :=
  (m.find? (fun p => p.1 == k)).map (·.2)

/-- The key list of an association-list dict, in insertion order. -/
def dictKeys (m : List (String × α)) : List String := m.map (·.1)

/-- The scan behind `elemento.find(tag)`: first sibling with the tag. -/
def buscarHijo : ElemList → String → Option Elem
  | .nil, _ => none
  | .cons c rest, tag => if c.tag == tag then some c else buscarHijo rest tag

/-- `elemento.find(tag)`: the first direct child with the given tag, else None. -/
def findChild (e : Elem) (tag : String) : Option Elem := buscarHijo e.children tag

mutual
/-- The proper descendants of one element carrying the given tag,
in document order. -/
def descElem : Elem → String → List Elem
  | .mk _ _ ch, tag => descList ch tag

/-- Descendants with the given tag, in document order, over a sibling
sequence (used for ElementTree's `".//tag"` paths, which search all
descendants in document order). -/
def descList : ElemList → String → List Elem
  | .nil, _ => []
  | .cons c rest, tag =>
      (if c.tag == tag then [c] else []) ++ descElem c tag ++ descList rest tag
end

/-- `root.findall(".//" ++ tag)`: every proper descendant with the tag,
in document order. -/
def findallDesc (e : Elem) (tag : String) : List Elem := descList e.children tag

/-- `elemento.find(".//" ++ tag)`: the first descendant with the tag, else None. -/
def findDesc (e : Elem) (tag : String) : Option Elem := (findallDesc e tag).head?

mutual
/-- `parsear_elemento` of obtener_predios_desde_xml: each child with children
of its own is stored as a nested mapping (`if len(hijo):`), a childless child
is stored as its text; `parsed[hijo.tag] = ...` is a dict assignment, so a
repeated tag overwrites the earlier entry. -/
def parsear_elemento : Elem → List (String × Val)
  | .mk _ _ ch => parsear_hijos ch []

/-- The `for hijo in elemento` loop of parsear_elemento, with the dict built
so far as accumulator. -/
def parsear_hijos : ElemList → List (String × Val) → List (String × Val)
  | .nil, parsed => parsed
  | .cons hijo rest, parsed =>
      parsear_hijos rest
        (dictInsert parsed hijo.tag
          (match hijo.children with
           | .nil => Val.scalar hijo.text
           | .cons _ _ => Val.nested (parsear_elemento hijo)))
end

/-- The identifier under which obtener_predios_desde_xml indexes a predio:
the text of the direct child `codigo_predial_nacional`, provided the element
exists and its text is truthy (`codigo_predial is not None and
codigo_predial.text` — None and the empty string are falsy). -/
def idOf (predio : Elem) : Option String :=
  match findChild predio "codigo_predial_nacional" with
  | some codEl =>
      match codEl.text with
      | some t => if t == "" then none else some t
      | none => none
  | none => none

/-- One iteration of the `for predio in root.findall('.//predio')` loop of
obtener_predios_desde_xml: a record with truthy identifier is stored under it
(`predios[codigo_predial.text] = parsear_elemento(predio)`), others are
skipped. -/
def indexarPredio (predios : List (String × List (String × Val))) (predio : Elem) :
    List (String × List (String × Val)) :=
  match idOf predio with
  | some t => dictInsert predios t (parsear_elemento predio)
  | none => predios

/-- `obtener_predios_desde_xml`: index every `.//predio` descendant by its
truthy codigo_predial_nacional text; `predios[codigo] = parsear_elemento(...)`
is a dict assignment, so a later record with the same identifier overwrites
the earlier one. Records with an absent element or falsy text are skipped. -/
def obtener_predios_desde_xml (root : Elem) : List (String × List (String × Val)) :=
  (findallDesc root "predio").foldl indexarPredio []

/-- The result shape `{"conteo": ..., "numeros_prediales": ...}` returned by
the three classifier consultas. -/
structure Conteo where
  conteo : Nat
  numeros_prediales : List String
deriving Repr, DecidableEq

/-- Python `s.isdigit()` on the ASCII data of this repository: nonempty and
all characters decimal digits. (Python also accepts some non-ASCII digit
characters; the cadastral identifiers and appraisals are ASCII.) -/
def pyIsDigit (s : String) : Bool := !s.toList.isEmpty && s.toList.all (·.isDigit)

/-- `int(s)` for a digit string, char by char. -/
def pyInt (s : String) : Nat := s.toList.foldl (fun n c => n * 10 + (c.toNat - 48)) 0

/-- Python `not s.strip()`: stripping surrounding whitespace leaves the empty
string, i.e. every character of `s` is whitespace. -/
def pyStripVacia (s : String) : Bool := s.toList.all (·.isWhitespace)

/-- One `dict[key] = True` insertion of the classifier loops (and one element
of a set-update): keys are stored once, in first-insertion order. -/
def insertKey (acc : List String) (k : String) : List String :=
  if acc.contains k then acc else acc ++ [k]

/-- Python truthiness of `codigo_predial` (`if codigo_predial:`): None and the
empty string are falsy. -/
def truthy : Option String → Option String
  | some s => if s == "" then none else some s
  | none => none

/-- One iteration of the loop of identificar_predios_sin_avaluos.
`predio.find("codigo_predial_nacional").text` raises AttributeError when the
element is absent; `avaluo.text.strip()` raises AttributeError when the avaluo
element is present with None text. Returns the codigo to record, if any. -/
def sinAvaluoRecord (predio : Elem) : Except Unit (Option String) :=
  match findChild predio "codigo_predial_nacional" with
  | none => .error ()
  | some codEl =>
      match findDesc predio "avaluo" with
      | none => .ok (truthy codEl.text)
      | some avEl =>
          match avEl.text with
          | none => .error ()
          | some t => if pyStripVacia t then .ok (truthy codEl.text) else .ok none

/-- The `for predio in root.findall(".//predio")` loop shared by the
classifier consultas: each record contributes at most one dict key; an
exception raised for one record aborts the whole loop. -/
def recorrerPredios (paso : Elem → Except Unit (Option String)) :
    List Elem → List String → Except Unit (List String)
  | [], acc => .ok acc
  | p :: rest, acc =>
      match paso p with
      | .error e => .error e
      | .ok (some c) => recorrerPredios paso rest (insertKey acc c)
      | .ok none => recorrerPredios paso rest acc

/-- identificar_predios_sin_avaluos: the surrounding try/except turns any
exception raised while processing one record into the empty result
`{"conteo": 0, "numeros_prediales": []}` for the whole file. -/
def identificar_predios_sin_avaluos (root : Elem) : Conteo :=
  match recorrerPredios sinAvaluoRecord (findallDesc root "predio") [] with
  | .ok ks => ⟨ks.length, ks⟩
  | .error _ => ⟨0, []⟩

/-- `int(avaluo.text) if avaluo is not None and avaluo.text.isdigit() else 0`:
an absent element gives 0, a non-digit text gives 0, but an element present
with None text raises AttributeError (`None.isdigit()`). -/
def parseAvaluo : Option Elem → Except Unit Nat
  | none => .ok 0
  | some avEl =>
      match avEl.text with
      | none => .error ()
      | some t => .ok (if pyIsDigit t then pyInt t else 0)

/-- One iteration of the loop of identificar_predios_avaluo_cero_o_condiciones.
`predio.find("codigo_predial_nacional").text` and
`predio.find("condicion_predio").text` raise AttributeError when the element
is absent; when the appraisal parses to 0 and the codigo text is None,
`len(codigo_predial)` raises TypeError. -/
def avaluoCeroRecord (predio : Elem) : Except Unit (Option String) :=
  match findChild predio "codigo_predial_nacional" with
  | none => .error ()
  | some codEl =>
      match findChild predio "condicion_predio" with
      | none => .error ()
      | some condEl =>
          match parseAvaluo (findDesc predio "avaluo") with
          | .error e => .error e
          | .ok avaluo_valor =>
              if avaluo_valor == 0 then
                match codEl.text with
                | none => .error ()
                | some cod =>
                    let posicion_22 : Option Char :=
                      if cod.length ≥ 22 then cod.toList[21]? else none
                    if posicion_22 == some '0' || condEl.text == some "NPH" then
                      .ok (some cod)
                    else .ok none
              else .ok none

/-- identificar_predios_avaluo_cero_o_condiciones: the surrounding try/except
turns any exception raised while processing one record into the empty result
for the whole file. -/
def identificar_predios_avaluo_cero_o_condiciones (root : Elem) : Conteo :=
  match recorrerPredios avaluoCeroRecord (findallDesc root "predio") [] with
  | .ok ks => ⟨ks.length, ks⟩
  | .error _ => ⟨0, []⟩

/-- Python `v in [None, "", "NULL"]` for an extracted value. -/
def esNulo : Val → Bool
  | .scalar none => true
  | .scalar (some s) => s == "" || s == "NULL"
  | .nested _ => false

/-- Python `v in [0, 0.0]` for an extracted value: equality with the int 0 or
the float 0.0. An extracted value is None, a str or a dict, and in Python none
of these compares equal to 0 or 0.0 (equality between different types, no
coercion), so the test is false for every extracted value. -/
def esCeroNumerico : Val → Bool
  | .scalar none => false
  | .scalar (some _) => false
  | .nested _ => false

/-- The `for interesado_enero in interesados_enero` loop over the iterated
items, which (see comparar_interesados) are all strs: a str matches neither
`hasattr(interesado_enero, 'tag')` nor `isinstance(interesado_enero, dict)`,
so no iteration reaches a `return True` and the loop contributes nothing. -/
def iteraItems (items : List String) : Bool :=
  items.any (fun _ => false)

/-- comparar_interesados, applied to values stored by parsear_elemento.
Python iterates `interesados_enero`:
* a str is first wrapped into a one-element list, so iteration yields the str;
* a dict yields its keys, which are strs;
* None raises TypeError (`'NoneType' object is not iterable`) — the error case.
Every iterated item is therefore a str, so neither branch of the loop body
fires and the function returns False (no relevant difference) whatever the
December value holds. -/
def comparar_interesados (interesados_enero interesados_dic : Val) : Except Unit Bool :=
  match interesados_enero with
  | .scalar none => .error ()
  | .scalar (some s) => .ok (iteraItems [s])
  | .nested m => .ok (iteraItems (dictKeys m))

/-- The body of the `for key in predio_enero.keys()` loop of comparar_predios
for one field: either a suppression (`continue`), a recorded delta, or the
exception propagated from comparar_interesados. -/
def procesarCampo (key : String) (valor_enero valor_dic : Val) :
    Except Unit (Option (String × Val × Val)) :=
  if (esNulo valor_enero && esCeroNumerico valor_dic)
      || (esNulo valor_dic && esCeroNumerico valor_enero) then .ok none
  else if key == "direccion" && valor_enero == Val.scalar (some "SIN DIRECCION") then .ok none
  else
    match (if key == "interesados" then comparar_interesados valor_enero valor_dic
           else .ok true) with
    | .error e => .error e
    | .ok relevante =>
        if !relevante then .ok none
        else if valor_enero == valor_dic then .ok none
        else .ok (some (key, valor_enero, valor_dic))

/-- The field loop of comparar_predios for one common predio: the fields of
the A-side (enero) record, in insertion order (for a dict, iterating
`keys()` and indexing visits exactly these pairs); the December value defaults
to None (`predio_dic.get(key, None)`). -/
def diferenciasCampos :
    List (String × Val) → List (String × Val) → Except Unit (List (String × Val × Val))
  | [], _ => .ok []
  | (key, valor_enero) :: resto, predio_dic =>
      match procesarCampo key valor_enero ((lookupD predio_dic key).getD (Val.scalar none)) with
      | .error e => .error e
      | .ok none => diferenciasCampos resto predio_dic
      | .ok (some d) =>
          match diferenciasCampos resto predio_dic with
          | .error e => .error e
          | .ok ds => .ok (d :: ds)

/-- The result of comparar_predios: predios present in only one vigencia and
the codes reported with differences. -/
structure DiffResult where
  unicos_enero : List String
  unicos_dic : List String
  predios_con_diferencias : List String
deriving Repr, DecidableEq

/-- The `for codigo in comunes` loop of comparar_predios. Python iterates the
set `codigos_enero & codigos_dic` in unspecified order; iterating the January
insertion order fixes one order without changing what is a member of the
result. An exception raised for one predio aborts comparar_predios (and the
run). -/
def cambiosComunes :
    List (String × List (String × Val)) → List (String × List (String × Val)) →
    Except Unit (List String)
  | [], _ => .ok []
  | (codigo, predio_enero) :: resto, predios_dic =>
      if (dictKeys predios_dic).contains codigo then
        match diferenciasCampos predio_enero ((lookupD predios_dic codigo).getD []) with
        | .error e => .error e
        | .ok diferencias =>
            match cambiosComunes resto predios_dic with
            | .error e => .error e
            | .ok cs => .ok (if diferencias.isEmpty then cs else codigo :: cs)
      else cambiosComunes resto predios_dic

/-- comparar_predios: unique codes of each vigencia by set difference, then
the common codes compared field by field over the January field set. -/
def comparar_predios (predios_enero predios_dic : List (String × List (String × Val))) :
    Except Unit DiffResult :=
  match cambiosComunes predios_enero predios_dic with
  | .error e => .error e
  | .ok cs =>
      .ok { unicos_enero :=
              (dictKeys predios_enero).filter (fun c => !(dictKeys predios_dic).contains c)
          , unicos_dic :=
              (dictKeys predios_dic).filter (fun c => !(dictKeys predios_enero).contains c)
          , predios_con_diferencias := cs }

/-- `acumulados_comunes.update(predios_con_diferencias)` after the comparison
loop; on an exception inside the loop the update line is never reached. -/
def acumularDiferencias (acumulados_comunes : List String)
    (predios_enero predios_dic : List (String × List (String × Val))) :
    Except Unit (List String) :=
  match comparar_predios predios_enero predios_dic with
  | .error e => .error e
  | .ok r => .ok (r.predios_con_diferencias.foldl insertKey acumulados_comunes)

/-- Python set difference `a - b`, on deduplicated identifier lists. -/
def setDiff (a b : List String) : List String := a.filter (fun x => !b.contains x)

/-- Python set intersection `a & b`, on deduplicated identifier lists. -/
def setInter (a b : List String) : List String := a.filter (fun x => b.contains x)

/-- extract_land_data: on a successful query, the set of non-null `land`
values of the rows; when the query raises, the except branch writes the error
to the report and returns the empty set — unconditionally, with no opt-in
parameter and no abort of the cross-reference step. -/
def extract_land_data (queryResult : Except Unit (List (Option String))) : List String :=
  match queryResult with
  | .ok rows => (rows.filterMap id).foldl insertKey []
  | .error _ => []

/-- Lines 739–743 of main: the accumulated changed set minus the tramites
reference set minus the resoluciones reference set. -/
def predios_sin_tram_res (acumulados_comunes : List String)
    (tramitesQuery : Except Unit (List (Option String)))
    (predios_res : List String) : List String :=
  setDiff (setDiff acumulados_comunes (extract_land_data tramitesQuery)) predios_res

/-- `conteo[clave] += 1` when the key exists, else `conteo[clave] = 1`. -/
def incrKey (conteo : List (String × Nat)) (clave : String) : List (String × Nat) :=
  if conteo.any (fun p => p.1 == clave) then
    conteo.map (fun p => if p.1 == clave then (p.1, p.2 + 1) else p)
  else conteo ++ [(clave, 1)]

/-- extraer_primeros_5: count identifiers by `predio[:5]`, their first five
characters. -/
def extraer_primeros_5 (predios : List String) : List (String × Nat) :=
  predios.foldl (fun conteo predio => incrKey conteo (predio.take 5)) []

/-! Concrete inputs used by the claim theorems. -/

/-- January persona_natural of the C1 input: names JUAN PEREZ, none of the
four name sub-fields equal to DESCONOCIDO. -/
def persona_enero_c1 : List (String × Val) :=
  [("primer_nombre", .scalar (some "JUAN")), ("segundo_nombre", .scalar none),
   ("primer_apellido", .scalar (some "PEREZ")), ("segundo_apellido", .scalar none)]

/-- December persona_natural of the C1 input: primer_nombre changed to PEDRO. -/
def persona_dic_c1 : List (String × Val) :=
  [("primer_nombre", .scalar (some "PEDRO")), ("segundo_nombre", .scalar none),
   ("primer_apellido", .scalar (some "PEREZ")), ("segundo_apellido", .scalar none)]

def predio_enero_c1 : List (String × Val) :=
  [("interesados", .nested [("persona_natural", .nested persona_enero_c1)])]

def predio_dic_c1 : List (String × Val) :=
  [("interesados", .nested [("persona_natural", .nested persona_dic_c1)])]

/-- A predio with no condicion_predio element: `.text` on the result of
`find("condicion_predio")` raises AttributeError in consulta 3. -/
def predio_sin_condicion_c2 : Elem :=
  ⟨"predio", none, .ofList
   [⟨"codigo_predial_nacional", some "2501900112345678901230", .nil⟩,
    ⟨"avaluo", some "0", .nil⟩]⟩

/-- A well-formed predio satisfying the zero-appraisal rule (avaluo 0,
condicion NPH, position 22 of the 22-character codigo equal to '0'). -/
def predio_valido_c2 : Elem :=
  ⟨"predio", none, .ofList
   [⟨"codigo_predial_nacional", some "2501900112345678901230", .nil⟩,
    ⟨"condicion_predio", some "NPH", .nil⟩,
    ⟨"avaluo", some "0", .nil⟩]⟩

/-- A predio whose avaluo element is present with None text:
`avaluo.text.strip()` raises AttributeError in consulta 2. -/
def predio_avaluo_sin_texto_c2 : Elem :=
  ⟨"predio", none, .ofList
   [⟨"codigo_predial_nacional", some "AAA", .nil⟩,
    ⟨"avaluo", none, .nil⟩]⟩

/-- A file holding one malformed record next to one qualifying record. -/
def archivo_mixto_c2 : Elem :=
  ⟨"root", none, .ofList [predio_sin_condicion_c2, predio_valido_c2]⟩

/-- A file holding only the qualifying record. -/
def archivo_valido_c2 : Elem := ⟨"root", none, .ofList [predio_valido_c2]⟩

/-- A record whose avaluo element is absent (which consulta 2 must report). -/
def predio_sin_avaluo_c2 : Elem :=
  ⟨"predio", none, .ofList [⟨"codigo_predial_nacional", some "BBB", .nil⟩]⟩

/-- A file holding the avaluo-without-text record next to a record whose
avaluo element is absent. -/
def archivo_texto_nulo_c2 : Elem :=
  ⟨"root", none, .ofList [predio_avaluo_sin_texto_c2, predio_sin_avaluo_c2]⟩

/-- The C5 witness predio: 22-character codigo ending in '0', condicion NPH,
avaluo "0" nested below an avaluos element (found by the `.//avaluo` search). -/
def predio_c5 : Elem :=
  ⟨"predio", none, .ofList
   [⟨"codigo_predial_nacional", some "2501900112345678901230", .nil⟩,
    ⟨"condicion_predio", some "NPH", .nil⟩,
    ⟨"avaluos", none, .ofList [⟨"avaluo", some "0", .nil⟩]⟩]⟩

/-- The C7 witness snapshot: one record with a SIN DIRECCION address and a
non-null interesados structure. -/
def snapshot_c7 : List (String × List (String × Val)) :=
  [("X", [("direccion", Val.scalar (some "SIN DIRECCION")),
          ("interesados", Val.nested [("persona_natural", Val.nested persona_enero_c1)])])]

/-- First record node carrying identifier K (field f = "1"). -/
def predio_k1_c10 : Elem :=
  ⟨"predio", none, .ofList
   [⟨"codigo_predial_nacional", some "K", .nil⟩, ⟨"f", some "1", .nil⟩]⟩

/-- Second record node carrying the same identifier K (field f = "2"). -/
def predio_k2_c10 : Elem :=
  ⟨"predio", none, .ofList
   [⟨"codigo_predial_nacional", some "K", .nil⟩, ⟨"f", some "2", .nil⟩]⟩

/-- A tree with two record nodes sharing the identifier K. -/
def arbol_duplicado_c10 : Elem := ⟨"root", none, .ofList [predio_k1_c10, predio_k2_c10]⟩

/-! Helper lemmas about the dictionary operations. -/

theorem contains_iff_mem {l : List String} {a : String} : l.contains a = true ↔ a ∈ l := by
  simp [List.contains, List.elem_iff]

theorem esCeroNumerico_false (v : Val) : esCeroNumerico v = false := by
  cases v with
  | scalar o => cases o <;> rfl
  | nested m => rfl

theorem lookupD_nil (k : String) : lookupD ([] : List (String × α)) k = none := rfl

theorem lookupD_cons (a : String × α) (m : List (String × α)) (k : String) :
    lookupD (a :: m) k = if a.1 == k then some a.2 else lookupD m k := by
  by_cases h : a.1 == k <;> simp [lookupD, List.find?, h]

theorem lookupD_overwrite_ne (m : List (String × α)) (k k' : String) (v : α)
    (hne : k' ≠ k) :
    lookupD (m.map (fun p => if p.1 == k then (k, v) else p)) k' = lookupD m k' := by
  have hkk : ¬((k == k') = true) := by simp [Ne.symm hne]
  induction m with
  | nil => rfl
  | cons a rest ih =>
    rw [List.map_cons]
    by_cases ha : (a.1 == k) = true
    · have ha' : a.1 = k := by simpa using ha
      rw [if_pos ha, lookupD_cons, lookupD_cons, ha']
      rw [if_neg hkk, if_neg hkk]
      exact ih
    · rw [if_neg ha, lookupD_cons, lookupD_cons]
      by_cases hak : (a.1 == k') = true
      · rw [if_pos hak, if_pos hak]
      · rw [if_neg hak, if_neg hak]
        exact ih

theorem lookupD_overwrite_self (m : List (String × α)) (k : String) (v : α)
    (hany : m.any (fun p => p.1 == k) = true) :
    lookupD (m.map (fun p => if p.1 == k then (k, v) else p)) k = some v := by
  induction m with
  | nil => simp at hany
  | cons a rest ih =>
    rw [List.map_cons]
    by_cases ha : (a.1 == k) = true
    · rw [if_pos ha, lookupD_cons]
      rw [if_pos (by simp : ((k, v).1 == k) = true)]
    · have hrest : rest.any (fun p => p.1 == k) = true := by
        simpa [List.any_cons, ha] using hany
      rw [if_neg ha, lookupD_cons, if_neg ha]
      exact ih hrest

theorem lookupD_dictInsert_ne (m : List (String × α)) (k k' : String) (v : α)
    (hne : k' ≠ k) : lookupD (dictInsert m k v) k' = lookupD m k' := by
  rw [dictInsert]
  by_cases hany : m.any (fun p => p.1 == k) = true
  · rw [if_pos hany]
    exact lookupD_overwrite_ne m k k' v hne
  · rw [if_neg hany]
    have hkfalse : (k == k') = false := by simp [Ne.symm hne]
    have hkv : List.find? (fun p => p.1 == k') [(k, v)] = none := by
      simp [List.find?, hkfalse]
    rw [lookupD, List.find?_append, hkv]
    simp [lookupD]

theorem lookupD_dictInsert_self (m : List (String × α)) (k : String) (v : α) :
    lookupD (dictInsert m k v) k = some v := by
  rw [dictInsert]
  by_cases hany : m.any (fun p => p.1 == k) = true
  · rw [if_pos hany]
    exact lookupD_overwrite_self m k v hany
  · rw [if_neg hany]
    have hm : List.find? (fun p => p.1 == k) m = none := by
      rw [List.find?_eq_none]
      intro x hx hpx
      rw [Bool.not_eq_true, List.any_eq_false] at hany
      exact hany x hx hpx
    have hkv : List.find? (fun p => p.1 == k) [(k, v)] = some (k, v) := by
      simp [List.find?]
    rw [lookupD, List.find?_append, hm, hkv]
    rfl

/-! Claim theorems. -/

/-- C1 (code bug): the spec requires a non-DESCONOCIDO name mismatch inside
interesados to mark the record changed, but comparar_interesados iterates the
parsed interesados dict — whose iteration yields string keys, matching neither
loop branch — so it returns False and the whole interesados field is
suppressed: the records below differ in primer_nombre (JUAN vs PEDRO, neither
DESCONOCIDO) yet the changed set is empty. -/
theorem c1_diferencia_nombres_suprimida :
    comparar_predios [("X", predio_enero_c1)] [("X", predio_dic_c1)]
      = .ok { unicos_enero := [], unicos_dic := [], predios_con_diferencias := [] } ∧
    lookupD persona_enero_c1 "primer_nombre" = some (Val.scalar (some "JUAN")) ∧
    lookupD persona_dic_c1 "primer_nombre" = some (Val.scalar (some "PEDRO")) :=
  ⟨rfl, rfl, rfl⟩

/-- C3 (counterexample): with a failed tramites query and no opt-in anywhere
in the code, the cross-reference step still produces the unexplained result
\x7b"X"\x7d from the failed source instead of aborting. -/
theorem c3_contraejemplo_fuente_fallida :
    predios_sin_tram_res ["X"] (.error ()) [] = ["X"] := rfl

/-- C3 (amended): when the reference query raises, extract_land_data returns
the empty set and the cross-reference computation proceeds unconditionally,
exactly as if the reference set were empty; no opt-in parameter exists and no
abort occurs. -/
theorem c3_fallo_tratado_como_vacio :
    extract_land_data (.error ()) = [] ∧
    ∀ (acumulados predios_res : List String),
      predios_sin_tram_res acumulados (.error ()) predios_res
        = predios_sin_tram_res acumulados (.ok []) predios_res :=
  ⟨rfl, fun _ _ => rfl⟩

/-- C4 (code bug): the null-equivalence rule compares the other side with the
int 0 / float 0.0, which no extracted value (None, str or dict) ever equals in
Python, so the rule never fires: an enero avaluo of None against a dic avaluo
extracted as the string "0" is reported as a delta and the record is marked
changed, and the guard of rule 1 is false for every pair of extracted values. -/
theorem c4_null_contra_cero_no_suprimido :
    comparar_predios [("X", [("avaluo", Val.scalar none)])]
        [("X", [("avaluo", Val.scalar (some "0"))])]
      = .ok { unicos_enero := [], unicos_dic := [], predios_con_diferencias := ["X"] } ∧
    ∀ (valor_enero valor_dic : Val),
      ((esNulo valor_enero && esCeroNumerico valor_dic)
        || (esNulo valor_dic && esCeroNumerico valor_enero)) = false := by
  refine ⟨rfl, fun vE vD => ?_⟩
  rw [esCeroNumerico_false, esCeroNumerico_false]
  simp

/-- C8: the final unexplained set, computed by the two sequential set
differences of main, is disjoint from the tramites reference set and from the
resoluciones reference set, for every input. -/
theorem c8_inexplicados_disjuntos (acumulados : List String)
    (tramitesQuery : Except Unit (List (Option String))) (predios_res : List String) :
    setInter (predios_sin_tram_res acumulados tramitesQuery predios_res)
        (extract_land_data tramitesQuery) = [] ∧
    setInter (predios_sin_tram_res acumulados tramitesQuery predios_res) predios_res = [] := by
  constructor
  · rw [setInter, List.filter_eq_nil_iff]
    intro x hx
    rw [predios_sin_tram_res, setDiff, setDiff] at hx
    rcases List.mem_filter.mp hx with ⟨hx1, _⟩
    rcases List.mem_filter.mp hx1 with ⟨_, hland⟩
    simpa using hland
  · rw [setInter, List.filter_eq_nil_iff]
    intro x hx
    rw [predios_sin_tram_res, setDiff] at hx
    rcases List.mem_filter.mp hx with ⟨_, hres⟩
    simpa using hres

theorem recorrerPredios_error (paso : Elem → Except Unit (Option String)) :
    ∀ (ps : List Elem) (acc : List String),
      (∃ p ∈ ps, paso p = .error ()) → recorrerPredios paso ps acc = .error ()
  | [], _, h => by simp at h
  | p :: rest, acc, h => by
      rcases h with ⟨q, hq, herr⟩
      rcases List.mem_cons.mp hq with rfl | hq'
      · simp [recorrerPredios, herr]
      · cases hp : paso p with
        | error e =>
            cases e
            simp [recorrerPredios, hp]
        | ok r =>
            cases r with
            | some c =>
                simp only [recorrerPredios, hp]
                exact recorrerPredios_error paso rest _ ⟨q, hq', herr⟩
            | none =>
                simp only [recorrerPredios, hp]
                exact recorrerPredios_error paso rest _ ⟨q, hq', herr⟩

/-- C2 (amended): each classifier never propagates an exception to its caller,
and a record whose avaluo element is absent is classified with the appraisal
degraded to 0/absent; but a record with an absent condicion_predio element
(consulta 3), or with an avaluo element whose text is None (consulta 2),
raises inside the loop and the file-level except collapses the whole file's
classification to the empty result, discarding every other record. -/
theorem c2_error_de_un_predio_vacia_resultado (root1 root2 : Elem)
    (h1 : ∃ p ∈ findallDesc root1 "predio", avaluoCeroRecord p = .error ())
    (h2 : ∃ p ∈ findallDesc root2 "predio", sinAvaluoRecord p = .error ()) :
    identificar_predios_avaluo_cero_o_condiciones root1 = ⟨0, []⟩ ∧
    identificar_predios_sin_avaluos root2 = ⟨0, []⟩ := by
  constructor
  · rw [identificar_predios_avaluo_cero_o_condiciones,
        recorrerPredios_error avaluoCeroRecord _ _ h1]
  · rw [identificar_predios_sin_avaluos,
        recorrerPredios_error sinAvaluoRecord _ _ h2]

/-- C2 (counterexample): the file archivo_mixto_c2 holds a record with no
condicion_predio element next to a record that consulta 3 reports when alone;
the whole file classifies to the empty result, so the malformed record does
affect the classification of the other records. The same happens to
consulta 2 for a file holding an avaluo element with None text. -/
theorem c2_contraejemplo_colapso_archivo :
    identificar_predios_avaluo_cero_o_condiciones archivo_mixto_c2 = ⟨0, []⟩ ∧
    identificar_predios_avaluo_cero_o_condiciones archivo_valido_c2
      = ⟨1, ["2501900112345678901230"]⟩ ∧
    identificar_predios_sin_avaluos archivo_texto_nulo_c2 = ⟨0, []⟩ ∧
    identificar_predios_sin_avaluos ⟨"root", none, .ofList [predio_sin_avaluo_c2]⟩
      = ⟨1, ["BBB"]⟩ :=
  ⟨rfl, rfl, rfl, rfl⟩

theorem c2_testigo_error_vacia_resultado :
    identificar_predios_avaluo_cero_o_condiciones archivo_mixto_c2 = ⟨0, []⟩ ∧
    identificar_predios_sin_avaluos archivo_texto_nulo_c2 = ⟨0, []⟩ :=
  c2_error_de_un_predio_vacia_resultado archivo_mixto_c2 archivo_texto_nulo_c2
    ⟨predio_sin_condicion_c2,
      show predio_sin_condicion_c2 ∈ [predio_sin_condicion_c2, predio_valido_c2] by
        exact List.mem_cons_self _ _,
      rfl⟩
    ⟨predio_avaluo_sin_texto_c2,
      show predio_avaluo_sin_texto_c2 ∈ [predio_avaluo_sin_texto_c2, predio_sin_avaluo_c2] by
        exact List.mem_cons_self _ _,
      rfl⟩

/-- C5: for a record whose codigo_predial_nacional and condicion_predio
elements exist with text, and whose avaluo element (if any) has text, the
zero-appraisal classifier selects the record exactly when the integer-parsed
appraisal (absent element or non-digit text parsed as 0) equals 0 and either
the identifier has length at least 22 with the character at 0-indexed
position 21 equal to '0', or the condition equals "NPH"; for an identifier
shorter than 22 characters the position check is false without error and only
the condition check remains. -/
theorem c5_caracterizacion_avaluo_cero
    (predio codEl condEl : Elem) (cod cond : String)
    (hcod : findChild predio "codigo_predial_nacional" = some codEl)
    (hcodt : codEl.text = some cod)
    (hcond : findChild predio "condicion_predio" = some condEl)
    (hcondt : condEl.text = some cond)
    (hav : ∀ avEl, findDesc predio "avaluo" = some avEl → avEl.text ≠ none) :
    (avaluoCeroRecord predio = .ok (some cod) ↔
      (parseAvaluo (findDesc predio "avaluo") = .ok 0 ∧
        ((22 ≤ cod.length ∧ cod.toList[21]? = some '0') ∨ cond = "NPH"))) ∧
    (cod.length < 22 →
      (avaluoCeroRecord predio = .ok (some cod) ↔
        (parseAvaluo (findDesc predio "avaluo") = .ok 0 ∧ cond = "NPH"))) := by
  obtain ⟨n, hn⟩ : ∃ n, parseAvaluo (findDesc predio "avaluo") = .ok n := by
    cases hfd : findDesc predio "avaluo" with
    | none => exact ⟨0, by simp [parseAvaluo]⟩
    | some avEl =>
        cases hat : avEl.text with
        | none => exact absurd hat (hav avEl hfd)
        | some t => exact ⟨if pyIsDigit t then pyInt t else 0, by simp [parseAvaluo, hat]⟩
  have hmain : avaluoCeroRecord predio
      = (if (n == 0) = true then
          (if ((if 22 ≤ cod.length then cod.toList[21]? else none) == some '0'
                || (condEl.text == some "NPH")) = true
           then .ok (some cod) else .ok none)
         else .ok none) := by
    simp only [avaluoCeroRecord, hcod, hcond, hn, hcodt]
  have hsplit : ∀ (c : Bool),
      ((if c = true then (Except.ok (some cod) : Except Unit (Option String))
        else .ok none) = .ok (some cod) ↔ c = true) := by
    intro c
    cases c <;> simp
  have hiff : avaluoCeroRecord predio = .ok (some cod) ↔
      (parseAvaluo (findDesc predio "avaluo") = .ok 0 ∧
        ((22 ≤ cod.length ∧ cod.toList[21]? = some '0') ∨ cond = "NPH")) := by
    rw [hmain, hn, hcondt]
    by_cases hn0 : (n == 0) = true
    · have hn0' : n = 0 := by simpa using hn0
      subst hn0'
      rw [if_pos hn0, hsplit]
      rw [Bool.or_eq_true, beq_iff_eq, beq_iff_eq, Option.some_inj]
      simp only [eq_self_iff_true, true_and]
      by_cases hlen : 22 ≤ cod.length
      · rw [if_pos hlen]
        simp [hlen]
      · rw [if_neg hlen]
        simp [hlen]
    · have hne : n ≠ 0 := by simpa using hn0
      rw [if_neg hn0]
      simp [hne]
  refine ⟨hiff, fun hlt => ?_⟩
  rw [hiff]
  have : ¬(22 ≤ cod.length) := by omega
  constructor
  · rintro ⟨hp, hdisj⟩
    refine ⟨hp, ?_⟩
    rcases hdisj with ⟨hlen, _⟩ | hnph
    · exact absurd hlen this
    · exact hnph
  · rintro ⟨hp, hnph⟩
    exact ⟨hp, Or.inr hnph⟩

theorem c5_testigo_caracterizacion :
    avaluoCeroRecord predio_c5 = .ok (some "2501900112345678901230") := by
  have h := c5_caracterizacion_avaluo_cero predio_c5
    ⟨"codigo_predial_nacional", some "2501900112345678901230", .nil⟩
    ⟨"condicion_predio", some "NPH", .nil⟩
    "2501900112345678901230" "NPH" rfl rfl rfl rfl
    (by
      intro avEl hfd
      have heq : findDesc predio_c5 "avaluo" = some ⟨"avaluo", some "0", .nil⟩ := rfl
      rw [heq] at hfd
      injection hfd with hsub
      subst hsub
      simp [Elem.text])
  exact h.1.mpr ⟨rfl, Or.inr rfl⟩

theorem contains_eq_false_iff {l : List String} {a : String} :
    (l.contains a = false) ↔ a ∉ l := by
  cases h : l.contains a
  · simp only [h]
    constructor
    · intro _ hmem
      have hh := contains_iff_mem.mpr hmem
      rw [h] at hh
      exact Bool.noConfusion hh
    · intro _
      trivial
  · constructor
    · intro hff
      exact Bool.noConfusion hff
    · intro hnm
      exact absurd (contains_iff_mem.mp h) hnm

/-- C6: the differ computes unicos_enero = keysA - keysB and
unicos_dic = keysB - keysA, and the per-record comparison reads only the
A-side field set: inserting a field that the A-side record does not have into
the B-side record leaves the computed deltas unchanged, so a B-only field is
never surfaced and never marks the record changed. -/
theorem c6_asimetria_lado_enero
    (predios_enero predios_dic : List (String × List (String × Val))) (r : DiffResult)
    (h : comparar_predios predios_enero predios_dic = .ok r) :
    (∀ c, c ∈ r.unicos_enero ↔ (c ∈ dictKeys predios_enero ∧ c ∉ dictKeys predios_dic)) ∧
    (∀ c, c ∈ r.unicos_dic ↔ (c ∈ dictKeys predios_dic ∧ c ∉ dictKeys predios_enero)) ∧
    (∀ (predio_enero predio_dic : List (String × Val)) (k : String) (v : Val),
      k ∉ dictKeys predio_enero →
      diferenciasCampos predio_enero (dictInsert predio_dic k v)
        = diferenciasCampos predio_enero predio_dic) := by
  refine ⟨?_, ?_, ?_⟩
  · intro c
    cases hc : cambiosComunes predios_enero predios_dic with
    | error e =>
        rw [comparar_predios, hc] at h
        exact Except.noConfusion h
    | ok cs =>
        rw [comparar_predios, hc] at h
        injection h with h
        subst h
        simp only [List.mem_filter, Bool.not_eq_true']
        exact and_congr_right fun _ => contains_eq_false_iff
  · intro c
    cases hc : cambiosComunes predios_enero predios_dic with
    | error e =>
        rw [comparar_predios, hc] at h
        exact Except.noConfusion h
    | ok cs =>
        rw [comparar_predios, hc] at h
        injection h with h
        subst h
        simp only [List.mem_filter, Bool.not_eq_true']
        exact and_congr_right fun _ => contains_eq_false_iff
  · intro pE pD k v
    induction pE with
    | nil => intro _; rfl
    | cons kv resto ih =>
        intro hk
        obtain ⟨key, vE⟩ := kv
        have hkey : key ≠ k := by
          intro heq
          exact hk (by simp [dictKeys, heq])
        have hkrest : k ∉ dictKeys resto := by
          intro hmem
          exact hk (by simp [dictKeys] at hmem ⊢; exact Or.inr hmem)
        simp only [diferenciasCampos]
        rw [lookupD_dictInsert_ne pD k key v hkey]
        cases hp : procesarCampo key vE ((lookupD pD key).getD (Val.scalar none)) with
        | error e => rfl
        | ok o =>
            cases o with
            | none => exact ih hkrest
            | some d => rw [ih hkrest]

theorem c6_testigo_asimetria :
    diferenciasCampos [("a", Val.scalar (some "1"))]
        (dictInsert [("a", Val.scalar (some "1"))] "b" (Val.scalar (some "2")))
      = diferenciasCampos [("a", Val.scalar (some "1"))] [("a", Val.scalar (some "1"))] := by
  have h := c6_asimetria_lado_enero [("X", [("a", Val.scalar (some "1"))])]
      [("X", [("a", Val.scalar (some "1")), ("b", Val.scalar (some "2"))])]
      { unicos_enero := [], unicos_dic := [], predios_con_diferencias := [] } rfl
  exact h.2.2 [("a", Val.scalar (some "1"))] [("a", Val.scalar (some "1"))] "b"
    (Val.scalar (some "2")) (by simp [dictKeys])

theorem mem_lookupD_of_nodup {m : List (String × α)} {k : String} {v : α}
    (hmem : (k, v) ∈ m) (hnd : (dictKeys m).Nodup) : lookupD m k = some v := by
  induction m with
  | nil => cases hmem
  | cons a rest ih =>
      have hnd' := hnd
      rw [show dictKeys (a :: rest) = a.1 :: dictKeys rest from rfl,
          List.nodup_cons] at hnd'
      rcases List.mem_cons.mp hmem with heq | h'
      · rw [← heq, lookupD_cons]
        simp
      · have hkmem : k ∈ dictKeys rest :=
          List.mem_map.mpr ⟨(k, v), h', rfl⟩
        have hne : ¬(a.1 == k) = true := by
          intro hb
          have : a.1 = k := by simpa using hb
          exact hnd'.1 (this ▸ hkmem)
        rw [lookupD_cons, if_neg hne]
        exact ih h' hnd'.2

theorem lookupD_mem_keys {m : List (String × α)} {k : String} {v : α}
    (h : lookupD m k = some v) : k ∈ dictKeys m := by
  rw [lookupD] at h
  cases hf : m.find? (fun p => p.1 == k) with
  | none => rw [hf] at h; exact Option.noConfusion h
  | some p =>
      have hp : p ∈ m := List.mem_of_find?_eq_some hf
      have hpk := List.find?_some hf
      have : p.1 = k := by simpa using hpk
      exact List.mem_map.mpr ⟨p, hp, this⟩

theorem procesarCampo_self (k : String) (v : Val)
    (hint : k = "interesados" → v ≠ Val.scalar none) :
    procesarCampo k v v = .ok none := by
  have hz : esCeroNumerico v = false := esCeroNumerico_false v
  have hvv : (v == v) = true := Val.beq_refl v
  simp only [procesarCampo, hz, Bool.and_false, Bool.or_self, Bool.false_eq_true, if_false]
  by_cases hdir : (k == "direccion" && v == Val.scalar (some "SIN DIRECCION")) = true
  · rw [if_pos hdir]
  · rw [if_neg hdir]
    by_cases hk : (k == "interesados") = true
    · have hk' : k = "interesados" := by simpa using hk
      rw [if_pos hk]
      cases v with
      | scalar o =>
          cases o with
          | none => exact absurd rfl (hint hk')
          | some s => simp [comparar_interesados, iteraItems]
      | nested m => simp [comparar_interesados, iteraItems]
    · rw [if_neg hk]
      simp [hvv]

theorem diferenciasCampos_self :
    ∀ (l registro : List (String × Val)),
      (∀ kv ∈ l, lookupD registro kv.1 = some kv.2) →
      (∀ kv ∈ l, kv.1 = "interesados" → kv.2 ≠ Val.scalar none) →
      diferenciasCampos l registro = .ok []
  | [], _, _, _ => rfl
  | (key, vE) :: resto, registro, hlook, hint => by
      have h1 : lookupD registro key = some vE := hlook (key, vE) (List.mem_cons_self _ _)
      have h2 : procesarCampo key vE ((lookupD registro key).getD (Val.scalar none))
          = .ok none := by
        rw [h1]
        exact procesarCampo_self key vE (hint (key, vE) (List.mem_cons_self _ _))
      simp only [diferenciasCampos, h2]
      exact diferenciasCampos_self resto registro
        (fun kv hkv => hlook kv (List.mem_cons_of_mem _ hkv))
        (fun kv hkv => hint kv (List.mem_cons_of_mem _ hkv))

theorem cambiosComunes_self :
    ∀ (l S : List (String × List (String × Val))),
      (∀ e ∈ l, lookupD S e.1 = some e.2) →
      (∀ e ∈ l, (dictKeys e.2).Nodup) →
      (∀ e ∈ l, ∀ kv ∈ e.2, kv.1 = "interesados" → kv.2 ≠ Val.scalar none) →
      cambiosComunes l S = .ok []
  | [], _, _, _, _ => rfl
  | (codigo, predio) :: resto, S, hlook, hnd, hint => by
      have h1 : lookupD S codigo = some predio := hlook _ (List.mem_cons_self _ _)
      have hcont : (dictKeys S).contains codigo = true :=
        contains_iff_mem.mpr (lookupD_mem_keys h1)
      have hndp : (dictKeys predio).Nodup := hnd _ (List.mem_cons_self _ _)
      have hdiff : diferenciasCampos predio ((lookupD S codigo).getD []) = .ok [] := by
        rw [h1]
        exact diferenciasCampos_self predio predio
          (fun kv hkv =>
            mem_lookupD_of_nodup (show (kv.1, kv.2) ∈ predio by rw [Prod.mk.eta]; exact hkv)
              hndp)
          (hint _ (List.mem_cons_self _ _))
      have hrec := cambiosComunes_self resto S
        (fun e he => hlook e (List.mem_cons_of_mem _ he))
        (fun e he => hnd e (List.mem_cons_of_mem _ he))
        (fun e he => hint e (List.mem_cons_of_mem _ he))
      simp only [cambiosComunes, hcont, if_true, hdiff, hrec]
      rfl

/-- C7 (amended): diffing a snapshot against itself yields an empty changed
set and leaves the accumulated set unchanged, provided no record maps
'interesados' to a null scalar; for such records (an empty interesados
element) the differ raises TypeError and returns nothing at all. -/
theorem c7_autodiff_sin_cambios
    (S : List (String × List (String × Val))) (acumulados : List String)
    (hS : (dictKeys S).Nodup)
    (hrec : ∀ e ∈ S, (dictKeys e.2).Nodup)
    (hint : ∀ e ∈ S, ∀ kv ∈ e.2, kv.1 = "interesados" → kv.2 ≠ Val.scalar none) :
    comparar_predios S S
      = .ok { unicos_enero := [], unicos_dic := [], predios_con_diferencias := [] } ∧
    acumularDiferencias acumulados S S = .ok acumulados := by
  have hlook : ∀ e ∈ S, lookupD S e.1 = some e.2 := by
    intro e he
    exact mem_lookupD_of_nodup (show (e.1, e.2) ∈ S by rw [Prod.mk.eta]; exact he) hS
  have hc : cambiosComunes S S = .ok [] := cambiosComunes_self S S hlook hrec hint
  have hfil : (dictKeys S).filter (fun c => !(dictKeys S).contains c) = [] := by
    rw [List.filter_eq_nil_iff]
    intro c hcm
    simpa using hcm
  have hcompa : comparar_predios S S = .ok ⟨[], [], []⟩ := by
    rw [comparar_predios, hc, hfil]
  refine ⟨hcompa, ?_⟩
  rw [acumularDiferencias, hcompa]
  rfl

/-- C7 (counterexample): a snapshot whose single record holds a null
interesados field (an empty interesados element) diffed against the identical
snapshot does not yield an empty changed set — comparar_predios raises
TypeError (iterating None) and produces no DiffResult at all. -/
theorem c7_contraejemplo_interesados_nulo :
    comparar_predios [("X", [("interesados", Val.scalar none)])]
        [("X", [("interesados", Val.scalar none)])] = .error () := rfl

theorem c7_testigo_autodiff :
    comparar_predios snapshot_c7 snapshot_c7
      = .ok { unicos_enero := [], unicos_dic := [], predios_con_diferencias := [] } ∧
    acumularDiferencias ["A"] snapshot_c7 snapshot_c7 = .ok ["A"] := by
  refine c7_autodiff_sin_cambios snapshot_c7 ["A"] ?_ ?_ ?_
  · simp [snapshot_c7, dictKeys]
  · intro e he
    simp only [snapshot_c7, List.mem_singleton] at he
    subst he
    simp [dictKeys]
  · intro e he kv hkv hk
    simp only [snapshot_c7, List.mem_singleton] at he
    subst he
    simp only [List.mem_cons, List.mem_singleton] at hkv
    rcases hkv with h1 | h1
    · rw [h1] at hk
      simp at hk
    · rcases h1 with h1 | h1
      · rw [h1]
        simp
      · cases h1

/-- Total of the per-group counts of a conteo dictionary. -/
def sumCounts (m : List (String × Nat)) : Nat := (m.map (fun p => p.2)).sum

/-- Python `conteo[clave]` with 0 for an absent key. -/
def lookupNat (m : List (String × Nat)) (k : String) : Nat := (lookupD m k).getD 0

theorem dictKeys_incr_map (m : List (String × Nat)) (k : String) :
    dictKeys (m.map (fun p => if p.1 == k then (p.1, p.2 + 1) else p)) = dictKeys m := by
  rw [dictKeys, dictKeys, List.map_map]
  apply List.map_congr_left
  intro p _
  by_cases hp : (p.1 == k) = true
  · rw [Function.comp_apply, if_pos hp]
  · rw [Function.comp_apply, if_neg hp]

theorem not_mem_keys_of_any_false {m : List (String × α)} {k : String}
    (hany : ¬m.any (fun p => p.1 == k) = true) : k ∉ dictKeys m := by
  intro hmem
  rcases List.mem_map.mp hmem with ⟨p, hp, hpk⟩
  rw [Bool.not_eq_true, List.any_eq_false] at hany
  exact hany p hp (by simpa using hpk)

theorem dictKeys_incrKey_nodup (m : List (String × Nat)) (k : String)
    (hnd : (dictKeys m).Nodup) : (dictKeys (incrKey m k)).Nodup := by
  rw [incrKey]
  by_cases hany : m.any (fun p => p.1 == k) = true
  · rw [if_pos hany, dictKeys_incr_map]
    exact hnd
  · rw [if_neg hany]
    have hnotin := not_mem_keys_of_any_false hany
    rw [show dictKeys (m ++ [(k, 1)]) = dictKeys m ++ [k] by simp [dictKeys]]
    rw [List.nodup_append]
    exact ⟨hnd, List.nodup_singleton k, by simpa [List.disjoint_singleton] using hnotin⟩

theorem lookupNat_incr_map_self (m : List (String × Nat)) (k : String)
    (hany : m.any (fun p => p.1 == k) = true) :
    lookupD (m.map (fun p => if p.1 == k then (p.1, p.2 + 1) else p)) k
      = (lookupD m k).map (fun n => n + 1) := by
  induction m with
  | nil => simp at hany
  | cons a rest ih =>
      rw [List.map_cons]
      by_cases ha : (a.1 == k) = true
      · rw [if_pos ha, lookupD_cons, lookupD_cons, if_pos ha, if_pos ha]
        rfl
      · have hrest : rest.any (fun p => p.1 == k) = true := by
          simpa [List.any_cons, ha] using hany
        rw [if_neg ha, lookupD_cons, lookupD_cons, if_neg ha, if_neg ha]
        exact ih hrest

theorem lookupD_some_of_any {m : List (String × Nat)} {k : String}
    (hany : m.any (fun p => p.1 == k) = true) : ∃ n, lookupD m k = some n := by
  cases hl : lookupD m k with
  | some n => exact ⟨n, rfl⟩
  | none =>
      rw [lookupD] at hl
      rcases Option.map_eq_none'.mp hl with hf
      rw [List.find?_eq_none] at hf
      rcases List.any_eq_true.mp hany with ⟨p, hp, hpk⟩
      exact absurd hpk (hf p hp)

theorem lookupNat_incrKey_self (m : List (String × Nat)) (k : String) :
    lookupNat (incrKey m k) k = lookupNat m k + 1 := by
  rw [incrKey]
  by_cases hany : m.any (fun p => p.1 == k) = true
  · rw [if_pos hany, lookupNat, lookupNat, lookupNat_incr_map_self m k hany]
    rcases lookupD_some_of_any hany with ⟨n, hn⟩
    rw [hn]
    rfl
  · rw [if_neg hany, lookupNat, lookupNat]
    have hm : List.find? (fun p => p.1 == k) m = none := by
      rw [List.find?_eq_none]
      intro p hp hpk
      rw [Bool.not_eq_true, List.any_eq_false] at hany
      exact hany p hp hpk
    rw [lookupD, lookupD, List.find?_append, hm]
    simp [List.find?]

theorem lookupNat_incrKey_ne (m : List (String × Nat)) (k k' : String)
    (hne : k' ≠ k) : lookupNat (incrKey m k) k' = lookupNat m k' := by
  rw [incrKey]
  by_cases hany : m.any (fun p => p.1 == k) = true
  · rw [if_pos hany, lookupNat, lookupNat]
    clear hany
    induction m with
    | nil => rfl
    | cons a rest ih =>
        rw [List.map_cons]
        by_cases ha : (a.1 == k) = true
        · have ha' : a.1 = k := by simpa using ha
          have hak : ¬(a.1 == k') = true := by simp [ha', Ne.symm hne]
          rw [if_pos ha, lookupD_cons, lookupD_cons, if_neg hak, if_neg hak]
          exact ih
        · rw [if_neg ha, lookupD_cons, lookupD_cons]
          by_cases hak : (a.1 == k') = true
          · rw [if_pos hak, if_pos hak]
          · rw [if_neg hak, if_neg hak]
            exact ih
  · rw [if_neg hany, lookupNat, lookupNat]
    have hkv : List.find? (fun p => p.1 == k') [(k, 1)] = none := by
      have hkfalse : (k == k') = false := by simp [Ne.symm hne]
      simp [List.find?, hkfalse]
    rw [lookupD, lookupD, List.find?_append, hkv, Option.or_none]

theorem sumCounts_cons (p : String × Nat) (l : List (String × Nat)) :
    sumCounts (p :: l) = p.2 + sumCounts l := by
  simp [sumCounts]

theorem sumCounts_overwrite (k : String) :
    ∀ (m : List (String × Nat)), (dictKeys m).Nodup →
      m.any (fun p => p.1 == k) = true →
      sumCounts (m.map (fun p => if p.1 == k then (p.1, p.2 + 1) else p))
        = sumCounts m + 1
  | [], _, hany => by simp at hany
  | a :: rest, hnd, hany => by
      have hnd' := hnd
      rw [show dictKeys (a :: rest) = a.1 :: dictKeys rest from rfl,
          List.nodup_cons] at hnd'
      rw [List.map_cons]
      by_cases ha : (a.1 == k) = true
      · have ha' : a.1 = k := by simpa using ha
        have hrest_id :
            rest.map (fun p => if p.1 == k then (p.1, p.2 + 1) else p) = rest := by
          have hcongr : rest.map (fun p => if p.1 == k then (p.1, p.2 + 1) else p)
              = rest.map (fun p => p) := by
            apply List.map_congr_left
            intro p hp
            have hpk : ¬(p.1 == k) = true := by
              intro hb
              have hpk' : p.1 = k := by simpa using hb
              exact hnd'.1 (by rw [ha', ← hpk']; exact List.mem_map.mpr ⟨p, hp, rfl⟩)
            rw [if_neg hpk]
          rw [hcongr, List.map_id']
        rw [if_pos ha, hrest_id, sumCounts_cons, sumCounts_cons]
        omega
      · have hrest : rest.any (fun p => p.1 == k) = true := by
          simpa [List.any_cons, ha] using hany
        rw [if_neg ha, sumCounts_cons, sumCounts_cons,
          sumCounts_overwrite k rest hnd'.2 hrest]
        omega

theorem sumCounts_incrKey (m : List (String × Nat)) (k : String)
    (hnd : (dictKeys m).Nodup) : sumCounts (incrKey m k) = sumCounts m + 1 := by
  rw [incrKey]
  by_cases hany : m.any (fun p => p.1 == k) = true
  · rw [if_pos hany]
    exact sumCounts_overwrite k m hnd hany
  · rw [if_neg hany]
    simp [sumCounts]

/-- The fold of extraer_primeros_5, generalized over the starting dict:
the count stored under k grows by the number of identifiers whose first five
characters equal k. -/
theorem extraer_fold_lookupNat :
    ∀ (l : List String) (acc : List (String × Nat)) (k : String),
      lookupNat (l.foldl (fun conteo predio => incrKey conteo (predio.take 5)) acc) k
        = lookupNat acc k + l.countP (fun s => s.take 5 == k)
  | [], acc, k => by simp
  | s :: rest, acc, k => by
      rw [List.foldl_cons, List.countP_cons,
        extraer_fold_lookupNat rest (incrKey acc (s.take 5)) k]
      by_cases hs : (s.take 5 == k) = true
      · have h5 : s.take 5 = k := by simpa using hs
        rw [if_pos hs, h5, lookupNat_incrKey_self]
        omega
      · have hne : k ≠ s.take 5 := by
          intro heq
          exact hs (by simp [heq])
        rw [if_neg hs, lookupNat_incrKey_ne acc (s.take 5) k hne]
        omega

theorem extraer_fold_nodup :
    ∀ (l : List String) (acc : List (String × Nat)),
      (dictKeys acc).Nodup →
      (dictKeys (l.foldl (fun conteo predio => incrKey conteo (predio.take 5)) acc)).Nodup
  | [], _, h => h
  | s :: rest, acc, h => by
      rw [List.foldl_cons]
      exact extraer_fold_nodup rest _ (dictKeys_incrKey_nodup acc (s.take 5) h)

theorem extraer_fold_sum :
    ∀ (l : List String) (acc : List (String × Nat)),
      (dictKeys acc).Nodup →
      sumCounts (l.foldl (fun conteo predio => incrKey conteo (predio.take 5)) acc)
        = sumCounts acc + l.length
  | [], _, _ => by simp
  | s :: rest, acc, h => by
      rw [List.foldl_cons,
        extraer_fold_sum rest (incrKey acc (s.take 5)) (dictKeys_incrKey_nodup acc _ h),
        sumCounts_incrKey acc (s.take 5) h, List.length_cons]
      omega

theorem dictKeys_incrKey_sub (m : List (String × Nat)) (k k' : String)
    (h : k' ∈ dictKeys (incrKey m k)) : k' ∈ dictKeys m ∨ k' = k := by
  rw [incrKey] at h
  by_cases hany : m.any (fun p => p.1 == k) = true
  · rw [if_pos hany, dictKeys_incr_map] at h
    exact Or.inl h
  · rw [if_neg hany, show dictKeys (m ++ [(k, 1)]) = dictKeys m ++ [k] by simp [dictKeys],
      List.mem_append] at h
    rcases h with h | h
    · exact Or.inl h
    · exact Or.inr (by simpa using h)

theorem extraer_fold_keys_sub :
    ∀ (l : List String) (acc : List (String × Nat)) (k : String),
      k ∈ dictKeys (l.foldl (fun conteo predio => incrKey conteo (predio.take 5)) acc) →
      k ∈ dictKeys acc ∨ ∃ s ∈ l, s.take 5 = k
  | [], _, _, h => Or.inl h
  | s :: rest, acc, k, h => by
      rw [List.foldl_cons] at h
      rcases extraer_fold_keys_sub rest _ k h with h' | ⟨t, ht, h5⟩
      · rcases dictKeys_incrKey_sub acc (s.take 5) k h' with h'' | h''
        · exact Or.inl h''
        · exact Or.inr ⟨s, List.mem_cons_self _ _, h''.symm⟩
      · exact Or.inr ⟨t, List.mem_cons_of_mem _ ht, h5⟩

/-- C9: grouping by the first five characters is an exact partition: the
per-group counts sum to the number of identifiers, the group keys are
pairwise distinct, each group's count is the size of its filter-group, every
identifier's own five-character prefix is one of the group keys, and every
group key comes from some identifier. -/
theorem c9_agrupacion_particion (predios : List String) :
    sumCounts (extraer_primeros_5 predios) = predios.length ∧
    (dictKeys (extraer_primeros_5 predios)).Nodup ∧
    (∀ k c, (k, c) ∈ extraer_primeros_5 predios →
      c = (predios.filter (fun s => s.take 5 == k)).length) ∧
    (∀ s ∈ predios, s.take 5 ∈ dictKeys (extraer_primeros_5 predios)) ∧
    (∀ k ∈ dictKeys (extraer_primeros_5 predios), ∃ s ∈ predios, s.take 5 = k) := by
  have hnd : (dictKeys (extraer_primeros_5 predios)).Nodup :=
    extraer_fold_nodup predios [] (by simp [dictKeys])
  have hlk : ∀ k, lookupNat (extraer_primeros_5 predios) k
      = predios.countP (fun s => s.take 5 == k) := by
    intro k
    have h := extraer_fold_lookupNat predios [] k
    simpa [lookupNat, lookupD] using h
  refine ⟨?_, hnd, ?_, ?_, ?_⟩
  · have h := extraer_fold_sum predios [] (by simp [dictKeys])
    simpa [sumCounts] using h
  · intro k c hmem
    have hl : lookupD (extraer_primeros_5 predios) k = some c :=
      mem_lookupD_of_nodup hmem hnd
    have h2 : lookupNat (extraer_primeros_5 predios) k = c := by
      rw [lookupNat, hl]
      rfl
    rw [← List.countP_eq_length_filter, ← hlk k, h2]
  · intro s hs
    have hpos : 0 < predios.countP (fun x => x.take 5 == s.take 5) :=
      List.countP_pos_iff.mpr ⟨s, hs, by simp⟩
    cases hl : lookupD (extraer_primeros_5 predios) (s.take 5) with
    | some c => exact lookupD_mem_keys hl
    | none =>
        have h0 : lookupNat (extraer_primeros_5 predios) (s.take 5) = 0 := by
          rw [lookupNat, hl]
          rfl
        rw [hlk (s.take 5)] at h0
        omega
  · intro k hk
    rcases extraer_fold_keys_sub predios [] k hk with h | h
    · simp [dictKeys] at h
    · exact h

theorem c9_testigo_agrupacion :
    (2 : Nat) = (["25019A", "25019B", "25266C"].filter
        (fun s => s.take 5 == "25019")).length ∧
    "25019" ∈ dictKeys (extraer_primeros_5 ["25019A", "25019B", "25266C"]) :=
  ⟨(c9_agrupacion_particion ["25019A", "25019B", "25266C"]).2.2.1 "25019" 2
      (by
        have h : extraer_primeros_5 ["25019A", "25019B", "25266C"]
            = [("25019", 2), ("25266", 1)] := rfl
        rw [h]
        exact List.mem_cons_self _ _),
    (c9_agrupacion_particion ["25019A", "25019B", "25266C"]).2.2.2.1 "25019A"
      (List.mem_cons_self _ _)⟩

theorem dictKeys_dictInsert (m : List (String × α)) (k : String) (v : α) :
    dictKeys (dictInsert m k v)
      = if m.any (fun p => p.1 == k) = true then dictKeys m else dictKeys m ++ [k] := by
  rw [dictInsert]
  by_cases hany : m.any (fun p => p.1 == k) = true
  · rw [if_pos hany, if_pos hany, dictKeys, dictKeys, List.map_map]
    apply List.map_congr_left
    intro p _
    by_cases hp : (p.1 == k) = true
    · rw [Function.comp_apply, if_pos hp]
      exact (by simpa using hp : p.1 = k).symm
    · rw [Function.comp_apply, if_neg hp]
  · rw [if_neg hany, if_neg hany]
    simp [dictKeys]

theorem nodup_dictInsert (m : List (String × α)) (k : String) (v : α)
    (hnd : (dictKeys m).Nodup) : (dictKeys (dictInsert m k v)).Nodup := by
  rw [dictKeys_dictInsert]
  by_cases hany : m.any (fun p => p.1 == k) = true
  · rw [if_pos hany]
    exact hnd
  · rw [if_neg hany, List.nodup_append]
    exact ⟨hnd, List.nodup_singleton k,
      by simpa [List.disjoint_singleton] using not_mem_keys_of_any_false hany⟩

/-- The loop of obtener_predios_desde_xml, generalized over the dictionary
built so far: the value finally stored under one identifier is the parse of
the LAST record in document order carrying it (dict assignment overwrites). -/
theorem obtener_fold_lookup :
    ∀ (ps : List Elem) (acc : List (String × List (String × Val))) (id : String),
      lookupD (ps.foldl indexarPredio acc) id
        = match ps.reverse.find? (fun p => idOf p == some id) with
          | some p => some (parsear_elemento p)
          | none => lookupD acc id
  | [], acc, id => by simp
  | p :: rest, acc, id => by
      rw [List.foldl_cons, obtener_fold_lookup rest _ id, List.reverse_cons,
        List.find?_append]
      cases hf : rest.reverse.find? (fun q => idOf q == some id) with
      | some q => rfl
      | none =>
          rw [Option.none_or]
          cases hip : idOf p with
          | none =>
              have hfp : List.find? (fun q => idOf q == some id) [p] = none := by
                simp [List.find?, hip]
              rw [hfp, indexarPredio, hip]
          | some t =>
              by_cases hid : t = id
              · have hfp : List.find? (fun q => idOf q == some id) [p] = some p := by
                  have hbe : (t == id) = true := by simp [hid]
                  simp [List.find?, hip, hbe]
                rw [hfp, indexarPredio, hip, hid, lookupD_dictInsert_self]
              · have hfp : List.find? (fun q => idOf q == some id) [p] = none := by
                  have hbe : (t == id) = false := by simp [hid]
                  simp [List.find?, hip, hbe]
                rw [hfp, indexarPredio, hip, lookupD_dictInsert_ne _ _ _ _ (Ne.symm hid)]

theorem obtener_fold_nodup :
    ∀ (ps : List Elem) (acc : List (String × List (String × Val))),
      (dictKeys acc).Nodup → (dictKeys (ps.foldl indexarPredio acc)).Nodup
  | [], _, h => h
  | p :: rest, acc, h => by
      rw [List.foldl_cons]
      apply obtener_fold_nodup rest
      rw [indexarPredio]
      cases hip : idOf p with
      | none => exact h
      | some t => exact nodup_dictInsert acc t _ h

theorem countP_eq_one_of_nodup :
    ∀ (l : List String) (k : String), l.Nodup → k ∈ l →
      l.countP (fun s => s == k) = 1
  | [], _, _, hmem => absurd hmem (List.not_mem_nil _)
  | a :: rest, k, hnd, hmem => by
      rw [List.nodup_cons] at hnd
      rw [List.countP_cons]
      rcases List.mem_cons.mp hmem with heq | hmem'
      · subst heq
        have hz : rest.countP (fun s => s == k) = 0 := by
          rw [List.countP_eq_zero]
          intro x hx hb
          exact hnd.1 ((by simpa using hb : x = k) ▸ hx)
        simp [hz]
      · have hne : ¬(a == k) = true := by
          intro hb
          exact hnd.1 ((by simpa using hb : a = k) ▸ hmem')
        rw [countP_eq_one_of_nodup rest k hnd.2 hmem']
        simp [hne]

theorem countP_keys_eq_one {m : List (String × α)} {k : String}
    (hnd : (dictKeys m).Nodup) (hmem : k ∈ dictKeys m) :
    m.countP (fun e => e.1 == k) = 1 := by
  have h1 : (dictKeys m).countP (fun s => s == k) = m.countP (fun e => e.1 == k) := by
    rw [dictKeys, List.countP_map]
    rfl
  rw [← h1]
  exact countP_eq_one_of_nodup (dictKeys m) k hnd hmem

/-- C10: when two or more record nodes of the input tree carry the same
non-empty identifier, the extracted snapshot holds exactly one entry for that
identifier, and its attribute tree is the parse of the last such record node
in document order (later records silently overwrite earlier ones). -/
theorem c10_ultimo_predio_gana (root : Elem) (id : String) (pLast : Elem)
    (hid : id ≠ "")
    (hdup : 2 ≤ ((findallDesc root "predio").filter (fun p => idOf p == some id)).length)
    (hlast : (findallDesc root "predio").reverse.find? (fun p => idOf p == some id)
      = some pLast) :
    (obtener_predios_desde_xml root).countP (fun e => e.1 == id) = 1 ∧
    lookupD (obtener_predios_desde_xml root) id = some (parsear_elemento pLast) := by
  have hlook : lookupD (obtener_predios_desde_xml root) id
      = some (parsear_elemento pLast) := by
    have h := obtener_fold_lookup (findallDesc root "predio") [] id
    rw [hlast] at h
    exact h
  have hnd : (dictKeys (obtener_predios_desde_xml root)).Nodup :=
    obtener_fold_nodup (findallDesc root "predio") [] (by simp [dictKeys])
  exact ⟨countP_keys_eq_one hnd (lookupD_mem_keys hlook), hlook⟩

theorem c10_testigo_ultimo_predio :
    (obtener_predios_desde_xml arbol_duplicado_c10).countP (fun e => e.1 == "K") = 1 ∧
    lookupD (obtener_predios_desde_xml arbol_duplicado_c10) "K"
      = some (parsear_elemento predio_k2_c10) :=
  c10_ultimo_predio_gana arbol_duplicado_c10 "K" predio_k2_c10
    (by decide)
    (by
      rw [show (findallDesc arbol_duplicado_c10 "predio").filter
            (fun p => idOf p == some "K") = [predio_k1_c10, predio_k2_c10] from rfl]
      simp)
    rfl

end DifMpio
